import Mathlib

/-!
Shallow embedding of the trust-store / verification core of the
`node-opcua-pki` certificate manager (src/lib/pki/certificate_manager.ts).

A certificate is its DER byte string together with the validity window
that `exploreCertificateInfo` extracts from it.  The trust store keeps
two directories (`trusted/`, `rejected/`) of files named
`<thumbprint>.pem`, and a per-instance in-memory index `_thumbs` with a
`rejected` and a `trusted` thumbprint set.  Thumbprints are produced by
an external SHA-1 digest (`makeSHA1Thumbprint` of node-opcua-crypto);
the embedding is parametrised by the digest function `tp`.  File-system
state is explicit, and the one fallible file operation the claims care
about (`fs.rename`) takes an error-injection flag.
-/

namespace NodeOpcuaPki

/-- A certificate: raw DER bytes plus the validity window (`notBefore`,
`notAfter`, as millisecond timestamps) that `exploreCertificateInfo`
derives from them. -/
structure Cert where
  der : List Nat
  notBefore : Int
  notAfter : Int
deriving DecidableEq, Repr

/-- The `CertificateStatus` type of src/lib/pki/common.ts:
`"unknown" | "trusted" | "rejected"`. -/
inductive CertificateStatus where
  | unknown
  | trusted
  | rejected
deriving DecidableEq, Repr

/-- Thumbprints are hex digest strings. -/
abbrev Thumbprint := String

/-- A trust directory: files `<thumbprint>.pem`, each containing one
certificate (the PEM body that `readCertificate` parses back to DER). -/
abbrev Directory := List (Thumbprint × Cert)

/-- The in-memory `_thumbs` index of `CertificateManager`: a `rejected`
and a `trusted` set of thumbprints (JS objects used as sets). -/
structure Thumbs where
  rejected : List Thumbprint
  trusted : List Thumbprint
deriving DecidableEq, Repr

/-- The state a `CertificateManager` instance acts on: the two trust
directories on disk and the in-memory index.  `scanCount` is a ghost
counter incremented by every directory scan (`_readCertificates`), used
to reason about how often the store is scanned; it influences nothing. -/
structure PkiState where
  trustedDir : Directory
  rejectedDir : Directory
  thumbs : Thumbs
  scanCount : Nat
deriving DecidableEq, Repr

/-- Look a file up by name in a directory. -/
def dirLookup (t : Thumbprint) (d : Directory) : Option Cert :=
  (d.find? (fun e => e.1 = t)).map (fun e => e.2)

/-- Remove the file named `t` from a directory. -/
def dirErase (t : Thumbprint) (d : Directory) : Directory :=
  d.filter (fun e => e.1 ≠ t)

/-- `fs.writeFile`: (over)write the file named `t` with certificate `c`. -/
def dirWrite (t : Thumbprint) (c : Cert) (d : Directory) : Directory :=
  (t, c) :: dirErase t d

/-- `fs.rename src dest` of the file named `t`: fails (returns `none`)
when the source file does not exist or when the injected failure flag
`fail` is set; on success returns the two updated directories. -/
def fsRename (t : Thumbprint) (src dest : Directory) (fail : Bool) :
    Option (Directory × Directory) :=
  match dirLookup t src with
  | none => none
  | some c => if fail then none else some (dirErase t src, dirWrite t c dest)

/-- One walk of `_readCertificates._f` over a folder: for every file,
read the certificate it contains, compute its thumbprint, and record it
in the index set (`index[thumbprint] = 1`). -/
def scanDir (tp : Cert → Thumbprint) (d : Directory)
    (index : List Thumbprint) : List Thumbprint :=
  d.foldl (fun acc e => tp e.2 :: acc) index

/-- `CertificateManager._readCertificates`: walk `trusted/` then
`rejected/`, merging every file's thumbprint into the corresponding
`_thumbs` set.  The source runs this unconditionally on every status
query; there is no already-scanned guard. -/
def readCertificatesScan (tp : Cert → Thumbprint) (s : PkiState) : PkiState :=
  { s with
    thumbs :=
      { trusted := scanDir tp s.trustedDir s.thumbs.trusted
        rejected := scanDir tp s.rejectedDir s.thumbs.rejected }
    scanCount := s.scanCount + 1 }

/-- The decision chain of `_getCertificateStatus`: `rejected` if the
thumbprint is in the rejected set, else `trusted` if in the trusted
set, else `unknown`.  The rejected set is consulted first. -/
def statusDecision (t : Thumbprint) (th : Thumbs) : CertificateStatus :=
  if t ∈ th.rejected then CertificateStatus.rejected
  else if t ∈ th.trusted then CertificateStatus.trusted
  else CertificateStatus.unknown

/-- `CertificateManager._getCertificateStatus`: scan both trust
directories into the index, then decide from the index sets. -/
def getCertificateStatusInternal (tp : Cert → Thumbprint) (c : Cert)
    (s : PkiState) : PkiState × CertificateStatus :=
  let s1 := readCertificatesScan tp s
  (s1, statusDecision (tp c) s1.thumbs)

/-- `CertificateManager.getCertificateStatus` (caller-facing): when the
internal status is `unknown`, write the certificate (PEM-encoded) to
`rejected/<thumbprint>.pem` and report `rejected`; otherwise report the
internal status.  (The `initialize` call it starts with only touches the
`own/` tree, modelled separately.) -/
def getCertificateStatus (tp : Cert → Thumbprint) (c : Cert)
    (s : PkiState) : PkiState × CertificateStatus :=
  match getCertificateStatusInternal tp c s with
  | (s1, CertificateStatus.unknown) =>
      ({ s1 with rejectedDir := dirWrite (tp c) c s1.rejectedDir },
        CertificateStatus.rejected)
  | (s1, st) => (s1, st)

/-- Select a `_thumbs` set by status name (`this._thumbs[status]`).
The `unknown` arm is never reached: `getCertificateStatus` never
returns `unknown`. -/
def thumbsAt (st : CertificateStatus) (th : Thumbs) : List Thumbprint :=
  match st with
  | CertificateStatus.rejected => th.rejected
  | CertificateStatus.trusted => th.trusted
  | CertificateStatus.unknown => []

/-- `delete this._thumbs[st][t]`. -/
def thumbsEraseAt (st : CertificateStatus) (t : Thumbprint) (th : Thumbs) :
    Thumbs :=
  match st with
  | CertificateStatus.rejected => { th with rejected := th.rejected.filter (fun x => x ≠ t) }
  | CertificateStatus.trusted => { th with trusted := th.trusted.filter (fun x => x ≠ t) }
  | CertificateStatus.unknown => th

/-- `this._thumbs[st][t] = 1`. -/
def thumbsInsertAt (st : CertificateStatus) (t : Thumbprint) (th : Thumbs) :
    Thumbs :=
  match st with
  | CertificateStatus.rejected => { th with rejected := t :: th.rejected }
  | CertificateStatus.trusted => { th with trusted := t :: th.trusted }
  | CertificateStatus.unknown => th

/-- The on-disk directory named by a status. -/
def stateDir (st : CertificateStatus) (s : PkiState) : Directory :=
  match st with
  | CertificateStatus.rejected => s.rejectedDir
  | CertificateStatus.trusted => s.trustedDir
  | CertificateStatus.unknown => []

/-- Replace the on-disk directory named by a status. -/
def setStateDir (st : CertificateStatus) (d : Directory) (s : PkiState) :
    PkiState :=
  match st with
  | CertificateStatus.rejected => { s with rejectedDir := d }
  | CertificateStatus.trusted => { s with trustedDir := d }
  | CertificateStatus.unknown => s

/-- `CertificateManager._moveCertificate`: compute the current status
via the caller-facing query; if it already equals `newStatus`, succeed
without touching anything; otherwise rename
`<rootDir>/<status>/<t>.pem` to `<rootDir>/<newStatus>/<t>.pem` and —
exactly as the source does, whether or not the rename failed — delete
the thumbprint from `_thumbs[status]` and add it to
`_thumbs[newStatus]`, forwarding the rename's error. -/
def moveCertificate (tp : Cert → Thumbprint) (renameFail : Bool)
    (c : Cert) (newStatus : CertificateStatus) (s : PkiState) :
    PkiState × Option String :=
  let t := tp c
  match getCertificateStatus tp c s with
  | (s1, status) =>
    if status = newStatus then (s1, none)
    else
      let renamed := fsRename t (stateDir status s1) (stateDir newStatus s1)
        renameFail
      let s2 :=
        match renamed with
        | none => s1
        | some (src2, dest2) => setStateDir newStatus dest2 (setStateDir status src2 s1)
      let err : Option String :=
        match renamed with
        | none => some "rename error"
        | some _ => none
      ({ s2 with
          thumbs := thumbsInsertAt newStatus t (thumbsEraseAt status t s2.thumbs) },
        err)

/-- `CertificateManager.trustCertificate`. -/
def trustCertificate (tp : Cert → Thumbprint) (renameFail : Bool)
    (c : Cert) (s : PkiState) : PkiState × Option String :=
  moveCertificate tp renameFail c CertificateStatus.trusted s

/-- `CertificateManager.rejectCertificate`. -/
def rejectCertificate (tp : Cert → Thumbprint) (renameFail : Bool)
    (c : Cert) (s : PkiState) : PkiState × Option String :=
  moveCertificate tp renameFail c CertificateStatus.rejected s

/-- `CertificateManager.verifyCertificate`: guard `!certificate`
(`none` models a missing/null argument; note a zero-length Buffer is
truthy in JS, so an empty certificate passes this guard), then the
ordered `async.series` chain: not-yet-active check, expiry check, trust
check via `_getCertificateStatus`, and then the revocation, issuer-
revocation and URI checks, which the source stubs to unconditional
success (`TODO` comments). -/
def verifyCertificate (tp : Cert → Thumbprint) (now : Int)
    (cert : Option Cert) (s : PkiState) : PkiState × Option String :=
  match cert with
  | none => (s, some "BadSecurityChecksFailed")
  | some c =>
    if c.notBefore > now then (s, some "BadCertificateTimeInvalid")
    else if c.notAfter ≤ now then (s, some "BadCertificateTimeInvalid")
    else
      match getCertificateStatusInternal tp c s with
      | (s1, CertificateStatus.rejected) => (s1, some "BadCertificateUntrusted")
      | (s1, CertificateStatus.trusted) => (s1, none)
      | (s1, CertificateStatus.unknown) => (s1, some "BadCertificateUntrusted")

/-- The base64 alphabet. -/
def base64Alphabet : List Char :=
  "ABCDEFGHIJKLMNOPQRSTUVWXYZabcdefghijklmnopqrstuvwxyz0123456789+/".toList

/-- The base64 digit for a 6-bit value. -/
def b64digit (n : Nat) : Char := base64Alphabet.getD n ('A')

/-- Base64-encode a byte list (with `=` padding). -/
def base64Encode : List Nat → List Char
  | [] => []
  | [a] => [b64digit (a / 4), b64digit (a % 4 * 16), '=', '=']
  | [a, b] => [b64digit (a / 4), b64digit (a % 4 * 16 + b / 16),
      b64digit (b % 16 * 4), '=']
  | a :: b :: c :: rest =>
      b64digit (a / 4) :: b64digit (a % 4 * 16 + b / 16) ::
        b64digit (b % 16 * 4 + c / 64) :: b64digit (c % 64) ::
        base64Encode rest

/-- Split a character list into lines of at most 64 characters
(fuel-driven so that it reduces definitionally; the fuel is the list
length, which suffices because each step consumes at least one
character). -/
def chunkAux : Nat → List Char → List (List Char)
  | 0, _ => []
  | _ + 1, [] => []
  | n + 1, c :: cs => ((c :: cs).take 64) :: chunkAux n ((c :: cs).drop 64)

/-- Split a character list into lines of at most 64 characters. -/
def chunk64 (l : List Char) : List (List Char) :=
  chunkAux l.length l

/-- Modelled from the spec: `toPem(certificate, "CERTIFICATE")` of the
external node-opcua-crypto package (not under src/), which the spec
describes as writing "the PEM-encoded bytes": the base64 of the DER
bytes wrapped in 64-character lines between BEGIN/END CERTIFICATE
markers. -/
def pemEncode (der : List Nat) : List Char :=
  "-----BEGIN CERTIFICATE-----\n".toList ++
    (chunk64 (base64Encode der)).foldr (fun line acc => line ++ ('\n' :: acc)) [] ++
    "-----END CERTIFICATE-----\n".toList

/-- The bytes `getCertificateStatus` writes for an unknown certificate:
the PEM encoding of the certificate, as byte values. -/
def writtenFileBytes (c : Cert) : List Nat :=
  (pemEncode c.der).map Char.toNat

/-!
Bootstrap (`CertificateManager.initialize` plus the constructor's key
size defaulting).  The `own/` tree is disjoint from the trust
directories, so it gets its own small state.
-/

/-- The `own/` side of a PKI root: the set of directories that exist,
the `own/openssl.cnf` configuration asset, and the private key file's
bytes. -/
structure OwnState where
  dirs : List String
  configFile : Option String
  privateKey : Option (List Nat)
deriving DecidableEq, Repr

/-- Modelled from the spec: `toolbox.mkdir` (not under src/), which the
spec describes as create-if-missing, tolerating already-exists. -/
def mkdirOp (p : String) (s : OwnState) : OwnState :=
  if p ∈ s.dirs then s else { s with dirs := p :: s.dirs }

/-- Modelled from the spec: `toolbox.configurationFileSimpleTemplate`
(not under src/), the "static configuration asset required by the
crypto toolchain"; an opaque fixed string. -/
def configurationFileSimpleTemplate : String :=
  "openssl simple configuration template"

/-- The constructor's `options.keySize = options.keySize || 2048`
(JS `||`: `0` and absence both fall back to 2048). -/
def constructorKeySize (k : Option Nat) : Nat :=
  match k with
  | none => 2048
  | some v => if v = 0 then 2048 else v

/-- `CertificateManager.initialize`: create the directory skeleton,
(re)write the configuration asset, and generate a private key of the
configured size only when none exists.  Key generation
(`toolbox.createPrivateKey`, not under src/) is modelled from the spec
as an opaque generator `genKey` from the key size. -/
def bootstrapPki (genKey : Nat → List Nat) (keySize : Nat) (s : OwnState) :
    OwnState :=
  let s1 := mkdirOp "rejected"
    (mkdirOp "trusted"
      (mkdirOp "own/private"
        (mkdirOp "own/certs"
          (mkdirOp "own" (mkdirOp "" s)))))
  let s2 := { s1 with configFile := some configurationFileSimpleTemplate }
  match s2.privateKey with
  | some _ => s2
  | none => { s2 with privateKey := some (genKey keySize) }

/-!
The operations a caller can run against one `CertificateManager`
instance, as a step machine over `PkiState`, and the invariants the
claims about trust-state transitions need.
-/

/-- One caller-facing operation on the trust store. -/
inductive Op where
  | statusQ (c : Cert)
  | trustOp (c : Cert) (renameFail : Bool)
  | rejectOp (c : Cert) (renameFail : Bool)
  | verifyOp (now : Int) (c : Option Cert)
deriving DecidableEq, Repr

/-- Run one operation, keeping the resulting state. -/
def runOp (tp : Cert → Thumbprint) (s : PkiState) (op : Op) : PkiState :=
  match op with
  | Op.statusQ c => (getCertificateStatus tp c s).1
  | Op.trustOp c f => (trustCertificate tp f c s).1
  | Op.rejectOp c f => (rejectCertificate tp f c s).1
  | Op.verifyOp now c => (verifyCertificate tp now c s).1

/-- Run a list of operations left to right. -/
def runOps (tp : Cert → Thumbprint) (s : PkiState) (ops : List Op) : PkiState :=
  ops.foldl (runOp tp) s

/-- `op` moves the certificate with thumbprint `t` into `rejected/`. -/
def opRejects (tp : Cert → Thumbprint) (t : Thumbprint) : Op → Bool
  | Op.rejectOp c _ => tp c = t
  | _ => false

/-- `op` moves the certificate with thumbprint `t` into `trusted/`. -/
def opTrusts (tp : Cert → Thumbprint) (t : Thumbprint) : Op → Bool
  | Op.trustOp c _ => tp c = t
  | _ => false

/-- A directory is well formed when every file `<name>.pem` contains a
certificate whose thumbprint is `name` — true of every file the manager
itself writes. -/
def dirWF (tp : Cert → Thumbprint) (d : Directory) : Prop :=
  ∀ e ∈ d, e.1 = tp e.2

/-- Both trust directories are well formed. -/
def stateWF (tp : Cert → Thumbprint) (s : PkiState) : Prop :=
  dirWF tp s.trustedDir ∧ dirWF tp s.rejectedDir

instance (tp : Cert → Thumbprint) (d : Directory) : Decidable (dirWF tp d) :=
  inferInstanceAs (Decidable (∀ e ∈ d, e.1 = tp e.2))

instance (tp : Cert → Thumbprint) (s : PkiState) : Decidable (stateWF tp s) :=
  inferInstanceAs (Decidable (_ ∧ _))

/-- The state facts that make (and keep) a certificate's status
`trusted`: its thumbprint is in the trusted index set, not in the
rejected index set, and no file under `rejected/` contains a
certificate with that thumbprint. -/
def trustInv (tp : Cert → Thumbprint) (t : Thumbprint) (s : PkiState) : Prop :=
  t ∈ s.thumbs.trusted ∧ t ∉ s.thumbs.rejected ∧
    ∀ e ∈ s.rejectedDir, tp e.2 ≠ t

instance (tp : Cert → Thumbprint) (t : Thumbprint) (s : PkiState) :
    Decidable (trustInv tp t s) :=
  inferInstanceAs (Decidable (_ ∧ _ ∧ _))

/-- The state fact that makes (and keeps) a certificate's status
`rejected`: its thumbprint is in the rejected index set (which the
status lookup consults first), or a file under `rejected/` contains a
certificate with that thumbprint (the next scan puts it into the
index). -/
def rejectInv (tp : Cert → Thumbprint) (t : Thumbprint) (s : PkiState) : Prop :=
  t ∈ s.thumbs.rejected ∨ ∃ e ∈ s.rejectedDir, tp e.2 = t

instance (tp : Cert → Thumbprint) (t : Thumbprint) (s : PkiState) :
    Decidable (rejectInv tp t s) :=
  inferInstanceAs (Decidable (_ ∨ _))

/-!
Concrete fixtures used by witnesses and counterexamples: a toy
(injective on the inputs used) digest function and small certificates
and states.
-/

/-- A concrete digest function for concrete evaluations: one lowercase
letter per byte. -/
def tpDemo (c : Cert) : Thumbprint :=
  String.mk (c.der.map (fun n => Char.ofNat (97 + n % 26)))

/-- A demo certificate, valid from time 0 to 100. -/
def certA : Cert := { der := [0], notBefore := 0, notAfter := 100 }

/-- A second demo certificate with a different thumbprint. -/
def certB : Cert := { der := [1], notBefore := 0, notAfter := 100 }

/-- A zero-length demo certificate (an empty Buffer). -/
def certE : Cert := { der := [], notBefore := 0, notAfter := 100 }

/-- The empty store: no files, empty index. -/
def state0 : PkiState :=
  { trustedDir := [], rejectedDir := [],
    thumbs := { rejected := [], trusted := [] }, scanCount := 0 }

/-- A store whose `rejected/` directory holds `certA` (index not yet
scanned). -/
def stateRejA : PkiState :=
  { trustedDir := [], rejectedDir := [(tpDemo certA, certA)],
    thumbs := { rejected := [], trusted := [] }, scanCount := 0 }

/-- A store whose `trusted/` directory holds `certA`. -/
def stateTruA : PkiState :=
  { trustedDir := [(tpDemo certA, certA)], rejectedDir := [],
    thumbs := { rejected := [], trusted := [] }, scanCount := 0 }

/-- A store where `certA` appears under both `trusted/` and
`rejected/`. -/
def stateBothA : PkiState :=
  { trustedDir := [(tpDemo certA, certA)],
    rejectedDir := [(tpDemo certA, certA)],
    thumbs := { rejected := [], trusted := [] }, scanCount := 0 }

/-- A fresh `own/` root: no directories, no configuration file, no
private key. -/
def freshOwn : OwnState :=
  { dirs := [], configFile := none, privateKey := none }

/-!
Helper lemmas about scanning and the status decision.
-/

theorem mem_scanDir (tp : Cert → Thumbprint) (d : Directory)
    (idx : List Thumbprint) (t : Thumbprint) :
    t ∈ scanDir tp d idx ↔ (∃ e ∈ d, tp e.2 = t) ∨ t ∈ idx := by
  induction d generalizing idx with
  | nil => simp [scanDir]
  | cons e d ih =>
    have hstep : scanDir tp (e :: d) idx = scanDir tp d (tp e.2 :: idx) := rfl
    rw [hstep, ih]
    simp only [List.mem_cons]
    constructor
    · rintro (⟨e', he', ht⟩ | (h | h))
      · exact Or.inl ⟨e', Or.inr he', ht⟩
      · exact Or.inl ⟨e, Or.inl rfl, h.symm⟩
      · exact Or.inr h
    · rintro (⟨e', (rfl | he'), ht⟩ | h)
      · exact Or.inr (Or.inl ht.symm)
      · exact Or.inl ⟨e', he', ht⟩
      · exact Or.inr (Or.inr h)

theorem mem_scanDir_of_mem (tp : Cert → Thumbprint) (d : Directory)
    {idx : List Thumbprint} {t : Thumbprint} (h : t ∈ idx) :
    t ∈ scanDir tp d idx :=
  (mem_scanDir tp d idx t).mpr (Or.inr h)

theorem scan_trustedDir (tp : Cert → Thumbprint) (s : PkiState) :
    (readCertificatesScan tp s).trustedDir = s.trustedDir := rfl

theorem scan_rejectedDir (tp : Cert → Thumbprint) (s : PkiState) :
    (readCertificatesScan tp s).rejectedDir = s.rejectedDir := rfl

theorem scan_thumbs (tp : Cert → Thumbprint) (s : PkiState) :
    (readCertificatesScan tp s).thumbs =
      { trusted := scanDir tp s.trustedDir s.thumbs.trusted
        rejected := scanDir tp s.rejectedDir s.thumbs.rejected } := rfl

theorem statusDecision_eq_rejected {t : Thumbprint} {th : Thumbs} :
    statusDecision t th = CertificateStatus.rejected ↔ t ∈ th.rejected := by
  unfold statusDecision
  split_ifs with h1 h2 <;> simp_all

theorem statusDecision_eq_trusted {t : Thumbprint} {th : Thumbs} :
    statusDecision t th = CertificateStatus.trusted ↔
      t ∉ th.rejected ∧ t ∈ th.trusted := by
  unfold statusDecision
  split_ifs with h1 h2 <;> simp_all

theorem statusDecision_eq_unknown {t : Thumbprint} {th : Thumbs} :
    statusDecision t th = CertificateStatus.unknown ↔
      t ∉ th.rejected ∧ t ∉ th.trusted := by
  unfold statusDecision
  split_ifs with h1 h2 <;> simp_all

theorem gcsi_eq (tp : Cert → Thumbprint) (c : Cert) (s : PkiState) :
    getCertificateStatusInternal tp c s =
      (readCertificatesScan tp s,
        statusDecision (tp c) (readCertificatesScan tp s).thumbs) := rfl

theorem gcs_of_unknown {tp : Cert → Thumbprint} {c : Cert} {s : PkiState}
    (h : statusDecision (tp c) (readCertificatesScan tp s).thumbs =
      CertificateStatus.unknown) :
    getCertificateStatus tp c s =
      ({ readCertificatesScan tp s with
          rejectedDir :=
            dirWrite (tp c) c (readCertificatesScan tp s).rejectedDir },
        CertificateStatus.rejected) := by
  unfold getCertificateStatus
  rw [gcsi_eq, h]

theorem gcs_of_rejected {tp : Cert → Thumbprint} {c : Cert} {s : PkiState}
    (h : statusDecision (tp c) (readCertificatesScan tp s).thumbs =
      CertificateStatus.rejected) :
    getCertificateStatus tp c s =
      (readCertificatesScan tp s, CertificateStatus.rejected) := by
  unfold getCertificateStatus
  rw [gcsi_eq, h]

theorem gcs_of_trusted {tp : Cert → Thumbprint} {c : Cert} {s : PkiState}
    (h : statusDecision (tp c) (readCertificatesScan tp s).thumbs =
      CertificateStatus.trusted) :
    getCertificateStatus tp c s =
      (readCertificatesScan tp s, CertificateStatus.trusted) := by
  unfold getCertificateStatus
  rw [gcsi_eq, h]

theorem gcs_snd_ne_unknown (tp : Cert → Thumbprint) (c : Cert) (s : PkiState) :
    (getCertificateStatus tp c s).2 ≠ CertificateStatus.unknown := by
  rcases h : statusDecision (tp c) (readCertificatesScan tp s).thumbs
  · rw [gcs_of_unknown h]
    simp
  · rw [gcs_of_trusted h]
    simp
  · rw [gcs_of_rejected h]
    simp

/-!
Well-formedness of directories and its preservation.
-/

theorem dirWF_of_filter {tp : Cert → Thumbprint} {d : Directory}
    (h : dirWF tp d) (p : Thumbprint × Cert → Bool) :
    dirWF tp (d.filter p) := by
  intro e he
  exact h e (List.mem_of_mem_filter he)

theorem dirWF_dirErase {tp : Cert → Thumbprint} {d : Directory}
    (h : dirWF tp d) (t : Thumbprint) : dirWF tp (dirErase t d) :=
  dirWF_of_filter h _

theorem dirWF_dirWrite {tp : Cert → Thumbprint} {d : Directory}
    (h : dirWF tp d) {t : Thumbprint} {c : Cert} (hc : t = tp c) :
    dirWF tp (dirWrite t c d) := by
  intro e he
  rcases List.mem_cons.mp he with rfl | he'
  · exact hc
  · exact dirWF_dirErase h t e he'

theorem dirLookup_thumb {tp : Cert → Thumbprint} {d : Directory}
    (h : dirWF tp d) {t : Thumbprint} {c : Cert}
    (hl : dirLookup t d = some c) : t = tp c := by
  unfold dirLookup at hl
  rcases hfind : d.find? (fun e => e.1 = t) with _ | e
  · rw [hfind] at hl
    simp at hl
  · rw [hfind] at hl
    simp at hl
    have hmem : e ∈ d := List.mem_of_find?_eq_some hfind
    have hkey : e.1 = t := by
      have := List.find?_some hfind
      simpa using this
    rw [← hl, ← hkey]
    exact (h e hmem).symm ▸ rfl

theorem stateWF_scan {tp : Cert → Thumbprint} {s : PkiState}
    (h : stateWF tp s) : stateWF tp (readCertificatesScan tp s) := h

theorem stateWF_gcs {tp : Cert → Thumbprint} {c : Cert} {s : PkiState}
    (h : stateWF tp s) : stateWF tp (getCertificateStatus tp c s).1 := by
  rcases hst : statusDecision (tp c) (readCertificatesScan tp s).thumbs
  · rw [gcs_of_unknown hst]
    exact ⟨h.1, dirWF_dirWrite h.2 rfl⟩
  · rw [gcs_of_trusted hst]
    exact h
  · rw [gcs_of_rejected hst]
    exact h

/-!
Unfolding lemmas for `moveCertificate`.
-/

theorem thumbs_setStateDir (st : CertificateStatus) (d : Directory)
    (s : PkiState) : (setStateDir st d s).thumbs = s.thumbs := by
  cases st <;> rfl

theorem scanCount_setStateDir (st : CertificateStatus) (d : Directory)
    (s : PkiState) : (setStateDir st d s).scanCount = s.scanCount := by
  cases st <;> rfl

theorem move_noop {tp : Cert → Thumbprint} {f : Bool} {c : Cert}
    {ns : CertificateStatus} {s : PkiState} {S1 : PkiState}
    (hgcs : getCertificateStatus tp c s = (S1, ns)) :
    moveCertificate tp f c ns s = (S1, none) := by
  unfold moveCertificate
  rw [hgcs]
  simp

theorem move_renameFail {tp : Cert → Thumbprint} {f : Bool} {c : Cert}
    {ns st : CertificateStatus} {s S1 : PkiState}
    (hgcs : getCertificateStatus tp c s = (S1, st)) (hne : st ≠ ns)
    (hren : fsRename (tp c) (stateDir st S1) (stateDir ns S1) f = none) :
    moveCertificate tp f c ns s =
      ({ S1 with
          thumbs := thumbsInsertAt ns (tp c) (thumbsEraseAt st (tp c) S1.thumbs) },
        some "rename error") := by
  unfold moveCertificate
  rw [hgcs]
  simp [hne, hren]

theorem move_renameOk {tp : Cert → Thumbprint} {f : Bool} {c : Cert}
    {ns st : CertificateStatus} {s S1 : PkiState} {d1 d2 : Directory}
    (hgcs : getCertificateStatus tp c s = (S1, st)) (hne : st ≠ ns)
    (hren : fsRename (tp c) (stateDir st S1) (stateDir ns S1) f =
      some (d1, d2)) :
    moveCertificate tp f c ns s =
      ({ setStateDir ns d2 (setStateDir st d1 S1) with
          thumbs := thumbsInsertAt ns (tp c) (thumbsEraseAt st (tp c)
            (setStateDir ns d2 (setStateDir st d1 S1)).thumbs) },
        none) := by
  unfold moveCertificate
  rw [hgcs]
  simp [hne, hren]

theorem fsRename_none_or_some {t : Thumbprint} {src dest : Directory}
    {f : Bool} {d1 d2 : Directory}
    (h : fsRename t src dest f = some (d1, d2)) :
    ∃ c, dirLookup t src = some c ∧ f = false ∧
      d1 = dirErase t src ∧ d2 = dirWrite t c dest := by
  unfold fsRename at h
  rcases hl : dirLookup t src with _ | c
  · rw [hl] at h
    simp at h
  · rw [hl] at h
    rcases f with _ | _
    · simp at h
      exact ⟨c, rfl, rfl, h.1.symm, h.2.symm⟩
    · simp at h

/-!
Verification touches the store only through the internal status query.
-/

theorem verify_fst (tp : Cert → Thumbprint) (now : Int) (cert : Option Cert)
    (s : PkiState) :
    (verifyCertificate tp now cert s).1 = s ∨
      (verifyCertificate tp now cert s).1 = readCertificatesScan tp s := by
  rcases cert with _ | c
  · exact Or.inl rfl
  · simp only [verifyCertificate]
    split_ifs
    · exact Or.inl rfl
    · exact Or.inl rfl
    · rw [gcsi_eq]
      cases statusDecision (tp c) (readCertificatesScan tp s).thumbs <;>
        exact Or.inr rfl

/-!
Preservation of `trustInv`.
-/

theorem trustInv_scan {tp : Cert → Thumbprint} {t : Thumbprint} {s : PkiState}
    (h : trustInv tp t s) : trustInv tp t (readCertificatesScan tp s) := by
  obtain ⟨h1, h2, h3⟩ := h
  refine ⟨mem_scanDir_of_mem tp s.trustedDir h1, ?_, h3⟩
  intro hmem
  rcases (mem_scanDir tp s.rejectedDir s.thumbs.rejected t).mp hmem with
    ⟨e, he, hte⟩ | hidx
  · exact h3 e he hte
  · exact h2 hidx

theorem statusDecision_of_trustInv {tp : Cert → Thumbprint} {t : Thumbprint}
    {s : PkiState} (h : trustInv tp t s) :
    statusDecision t s.thumbs = CertificateStatus.trusted :=
  statusDecision_eq_trusted.mpr ⟨h.2.1, h.1⟩

theorem status_of_trustInv {tp : Cert → Thumbprint} {c : Cert} {s : PkiState}
    (h : trustInv tp (tp c) s) :
    getCertificateStatus tp c s =
      (readCertificatesScan tp s, CertificateStatus.trusted) :=
  gcs_of_trusted (statusDecision_of_trustInv (trustInv_scan h))

theorem trustInv_gcs {tp : Cert → Thumbprint} {t : Thumbprint} {c : Cert}
    {s : PkiState} (h : trustInv tp t s) :
    trustInv tp t (getCertificateStatus tp c s).1 := by
  have hs := trustInv_scan h
  rcases hst : statusDecision (tp c) (readCertificatesScan tp s).thumbs
  · rw [gcs_of_unknown hst]
    have hnt : tp c ∉ (readCertificatesScan tp s).thumbs.trusted :=
      (statusDecision_eq_unknown.mp hst).2
    have hne : tp c ≠ t := fun he => hnt (he ▸ hs.1)
    refine ⟨hs.1, hs.2.1, ?_⟩
    intro e he hte
    rcases List.mem_cons.mp he with rfl | he'
    · exact hne hte
    · exact hs.2.2 e (List.mem_of_mem_filter he') hte
  · rw [gcs_of_trusted hst]
    exact hs
  · rw [gcs_of_rejected hst]
    exact hs

/-!
Preservation of `rejectInv`.
-/

theorem rejectInv_scan {tp : Cert → Thumbprint} {t : Thumbprint} {s : PkiState}
    (h : rejectInv tp t s) :
    t ∈ (readCertificatesScan tp s).thumbs.rejected := by
  rcases h with hl | ⟨e, he, hte⟩
  · exact mem_scanDir_of_mem tp s.rejectedDir hl
  · exact (mem_scanDir tp s.rejectedDir s.thumbs.rejected t).mpr
      (Or.inl ⟨e, he, hte⟩)

theorem status_of_rejectInv {tp : Cert → Thumbprint} {c : Cert} {s : PkiState}
    (h : rejectInv tp (tp c) s) :
    getCertificateStatus tp c s =
      (readCertificatesScan tp s, CertificateStatus.rejected) :=
  gcs_of_rejected (statusDecision_eq_rejected.mpr (rejectInv_scan h))

theorem rejectInv_gcs {tp : Cert → Thumbprint} {t : Thumbprint} {c : Cert}
    {s : PkiState} (h : rejectInv tp t s) :
    t ∈ (getCertificateStatus tp c s).1.thumbs.rejected := by
  have hs := rejectInv_scan h
  rcases hst : statusDecision (tp c) (readCertificatesScan tp s).thumbs
  · rw [gcs_of_unknown hst]
    exact hs
  · rw [gcs_of_trusted hst]
    exact hs
  · rw [gcs_of_rejected hst]
    exact hs

theorem dirWF_stateDir {tp : Cert → Thumbprint} {s : PkiState}
    (hWF : stateWF tp s) (st : CertificateStatus) :
    dirWF tp (stateDir st s) := by
  cases st
  · intro e he
    simp [stateDir] at he
  · exact hWF.1
  · exact hWF.2

theorem stateWF_setStateDir {tp : Cert → Thumbprint} {s : PkiState}
    {d : Directory} (hWF : stateWF tp s) (hd : dirWF tp d)
    (st : CertificateStatus) : stateWF tp (setStateDir st d s) := by
  cases st
  · exact hWF
  · exact ⟨hd, hWF.2⟩
  · exact ⟨hWF.1, hd⟩

theorem stateWF_move {tp : Cert → Thumbprint} {f : Bool} {c : Cert}
    {ns : CertificateStatus} {s : PkiState} (hWF : stateWF tp s) :
    stateWF tp (moveCertificate tp f c ns s).1 := by
  rcases hgcs : getCertificateStatus tp c s with ⟨S1, st⟩
  have hS1 : stateWF tp S1 := by
    have h := stateWF_gcs (c := c) hWF
    rw [hgcs] at h
    exact h
  by_cases hst : st = ns
  · subst hst
    rw [move_noop hgcs]
    exact hS1
  · rcases hren : fsRename (tp c) (stateDir st S1) (stateDir ns S1) f with
      _ | ⟨d1, d2⟩
    · rw [move_renameFail hgcs hst hren]
      exact ⟨hS1.1, hS1.2⟩
    · obtain ⟨c', hlk, _, hd1, hd2⟩ := fsRename_none_or_some hren
      rw [move_renameOk hgcs hst hren]
      have hwf1 : dirWF tp d1 := by
        rw [hd1]
        exact dirWF_dirErase (dirWF_stateDir hS1 st) _
      have hwf2 : dirWF tp d2 := by
        rw [hd2]
        exact dirWF_dirWrite (dirWF_stateDir hS1 ns)
          (dirLookup_thumb (dirWF_stateDir hS1 st) hlk)
      have h2 := stateWF_setStateDir (stateWF_setStateDir hS1 hwf1 st) hwf2 ns
      exact ⟨h2.1, h2.2⟩

theorem stateWF_runOp {tp : Cert → Thumbprint} {s : PkiState}
    (hWF : stateWF tp s) (op : Op) : stateWF tp (runOp tp s op) := by
  cases op with
  | statusQ c => exact stateWF_gcs hWF
  | trustOp c f => exact stateWF_move hWF
  | rejectOp c f => exact stateWF_move hWF
  | verifyOp now c =>
    rcases verify_fst tp now c s with h | h
    · rw [runOp, h]
      exact hWF
    · rw [runOp, h]
      exact stateWF_scan hWF

theorem trustInv_trustOp {tp : Cert → Thumbprint} {t : Thumbprint} {f : Bool}
    {c : Cert} {s : PkiState} (hInv : trustInv tp t s) :
    trustInv tp t (trustCertificate tp f c s).1 := by
  rcases hgcs : getCertificateStatus tp c s with ⟨S1, st⟩
  have hS1 : trustInv tp t S1 := by
    have h := trustInv_gcs (c := c) hInv
    rw [hgcs] at h
    exact h
  unfold trustCertificate
  cases st with
  | unknown =>
    exact absurd (by rw [hgcs]) (gcs_snd_ne_unknown tp c s)
  | trusted =>
    rw [move_noop hgcs]
    exact hS1
  | rejected =>
    have hne : CertificateStatus.rejected ≠ CertificateStatus.trusted := by
      simp
    rcases hren : fsRename (tp c) (stateDir CertificateStatus.rejected S1)
        (stateDir CertificateStatus.trusted S1) f with _ | ⟨d1, d2⟩
    · rw [move_renameFail hgcs hne hren]
      refine ⟨?_, ?_, ?_⟩
      · simp only [thumbsInsertAt, thumbsEraseAt]
        exact List.mem_cons.mpr (Or.inr hS1.1)
      · simp only [thumbsInsertAt, thumbsEraseAt]
        exact fun hmem => hS1.2.1 (List.mem_of_mem_filter hmem)
      · exact hS1.2.2
    · obtain ⟨c', hlk, _, hd1, hd2⟩ := fsRename_none_or_some hren
      rw [move_renameOk hgcs hne hren]
      refine ⟨?_, ?_, ?_⟩
      · simp only [thumbsInsertAt, thumbsEraseAt, thumbs_setStateDir]
        exact List.mem_cons.mpr (Or.inr hS1.1)
      · simp only [thumbsInsertAt, thumbsEraseAt, thumbs_setStateDir]
        exact fun hmem => hS1.2.1 (List.mem_of_mem_filter hmem)
      · intro e he hte
        have he' : e ∈ S1.rejectedDir := by
          have : e ∈ d1 := he
          rw [hd1] at this
          exact List.mem_of_mem_filter this
        exact hS1.2.2 e he' hte

theorem trustInv_rejectOp {tp : Cert → Thumbprint} {t : Thumbprint} {f : Bool}
    {c : Cert} {s : PkiState} (hWF : stateWF tp s) (hInv : trustInv tp t s)
    (hne : tp c ≠ t) : trustInv tp t (rejectCertificate tp f c s).1 := by
  rcases hgcs : getCertificateStatus tp c s with ⟨S1, st⟩
  have hS1 : trustInv tp t S1 := by
    have h := trustInv_gcs (c := c) hInv
    rw [hgcs] at h
    exact h
  have hS1WF : stateWF tp S1 := by
    have h := stateWF_gcs (c := c) hWF
    rw [hgcs] at h
    exact h
  have htne : t ≠ tp c := fun h => hne h.symm
  unfold rejectCertificate
  cases st with
  | unknown =>
    exact absurd (by rw [hgcs]) (gcs_snd_ne_unknown tp c s)
  | rejected =>
    rw [move_noop hgcs]
    exact hS1
  | trusted =>
    have hnst : CertificateStatus.trusted ≠ CertificateStatus.rejected := by
      simp
    rcases hren : fsRename (tp c) (stateDir CertificateStatus.trusted S1)
        (stateDir CertificateStatus.rejected S1) f with _ | ⟨d1, d2⟩
    · rw [move_renameFail hgcs hnst hren]
      refine ⟨?_, ?_, ?_⟩
      · simp only [thumbsInsertAt, thumbsEraseAt]
        exact List.mem_filter.mpr ⟨hS1.1, by simp [htne]⟩
      · simp only [thumbsInsertAt, thumbsEraseAt]
        intro hmem
        rcases List.mem_cons.mp hmem with h | h
        · exact htne h
        · exact hS1.2.1 h
      · exact hS1.2.2
    · obtain ⟨c', hlk, _, hd1, hd2⟩ := fsRename_none_or_some hren
      rw [move_renameOk hgcs hnst hren]
      have hcc' : tp c = tp c' := dirLookup_thumb hS1WF.1 hlk
      refine ⟨?_, ?_, ?_⟩
      · simp only [thumbsInsertAt, thumbsEraseAt, thumbs_setStateDir]
        exact List.mem_filter.mpr ⟨hS1.1, by simp [htne]⟩
      · simp only [thumbsInsertAt, thumbsEraseAt, thumbs_setStateDir]
        intro hmem
        rcases List.mem_cons.mp hmem with h | h
        · exact htne h
        · exact hS1.2.1 h
      · intro e he hte
        have he2 : e ∈ d2 := he
        rw [hd2] at he2
        rcases List.mem_cons.mp he2 with rfl | he3
        · exact hne (hcc' ▸ hte)
        · exact hS1.2.2 e (List.mem_of_mem_filter he3) hte

theorem rejectInv_trustOp {tp : Cert → Thumbprint} {t : Thumbprint} {f : Bool}
    {c : Cert} {s : PkiState} (hInv : rejectInv tp t s) (hne : tp c ≠ t) :
    rejectInv tp t (trustCertificate tp f c s).1 := by
  rcases hgcs : getCertificateStatus tp c s with ⟨S1, st⟩
  have hS1 : t ∈ S1.thumbs.rejected := by
    have h := rejectInv_gcs (c := c) hInv
    rw [hgcs] at h
    exact h
  have htne : t ≠ tp c := fun h => hne h.symm
  unfold trustCertificate
  cases st with
  | unknown =>
    exact absurd (by rw [hgcs]) (gcs_snd_ne_unknown tp c s)
  | trusted =>
    rw [move_noop hgcs]
    exact Or.inl hS1
  | rejected =>
    have hnst : CertificateStatus.rejected ≠ CertificateStatus.trusted := by
      simp
    rcases hren : fsRename (tp c) (stateDir CertificateStatus.rejected S1)
        (stateDir CertificateStatus.trusted S1) f with _ | ⟨d1, d2⟩
    · rw [move_renameFail hgcs hnst hren]
      left
      simp only [thumbsInsertAt, thumbsEraseAt]
      exact List.mem_filter.mpr ⟨hS1, by simp [htne]⟩
    · rw [move_renameOk hgcs hnst hren]
      left
      simp only [thumbsInsertAt, thumbsEraseAt, thumbs_setStateDir]
      exact List.mem_filter.mpr ⟨hS1, by simp [htne]⟩

theorem rejectInv_rejectOp {tp : Cert → Thumbprint} {t : Thumbprint} {f : Bool}
    {c : Cert} {s : PkiState} (hInv : rejectInv tp t s) :
    rejectInv tp t (rejectCertificate tp f c s).1 := by
  rcases hgcs : getCertificateStatus tp c s with ⟨S1, st⟩
  have hS1 : t ∈ S1.thumbs.rejected := by
    have h := rejectInv_gcs (c := c) hInv
    rw [hgcs] at h
    exact h
  unfold rejectCertificate
  cases st with
  | unknown =>
    exact absurd (by rw [hgcs]) (gcs_snd_ne_unknown tp c s)
  | rejected =>
    rw [move_noop hgcs]
    exact Or.inl hS1
  | trusted =>
    have hnst : CertificateStatus.trusted ≠ CertificateStatus.rejected := by
      simp
    rcases hren : fsRename (tp c) (stateDir CertificateStatus.trusted S1)
        (stateDir CertificateStatus.rejected S1) f with _ | ⟨d1, d2⟩
    · rw [move_renameFail hgcs hnst hren]
      left
      simp only [thumbsInsertAt, thumbsEraseAt]
      exact List.mem_cons.mpr (Or.inr hS1)
    · rw [move_renameOk hgcs hnst hren]
      left
      simp only [thumbsInsertAt, thumbsEraseAt, thumbs_setStateDir]
      exact List.mem_cons.mpr (Or.inr hS1)

theorem trustInv_runOp {tp : Cert → Thumbprint} {t : Thumbprint} {s : PkiState}
    (hWF : stateWF tp s) (hInv : trustInv tp t s) (op : Op)
    (hop : opRejects tp t op = false) : trustInv tp t (runOp tp s op) := by
  cases op with
  | statusQ c => exact trustInv_gcs hInv
  | trustOp c f => exact trustInv_trustOp hInv
  | rejectOp c f =>
    have hne : tp c ≠ t := by
      simpa [opRejects] using hop
    exact trustInv_rejectOp hWF hInv hne
  | verifyOp now c =>
    rcases verify_fst tp now c s with h | h
    · rw [runOp, h]
      exact hInv
    · rw [runOp, h]
      exact trustInv_scan hInv

theorem rejectInv_runOp {tp : Cert → Thumbprint} {t : Thumbprint}
    {s : PkiState} (hInv : rejectInv tp t s) (op : Op)
    (hop : opTrusts tp t op = false) : rejectInv tp t (runOp tp s op) := by
  cases op with
  | statusQ c => exact Or.inl (rejectInv_gcs hInv)
  | trustOp c f =>
    have hne : tp c ≠ t := by
      simpa [opTrusts] using hop
    exact rejectInv_trustOp hInv hne
  | rejectOp c f => exact rejectInv_rejectOp hInv
  | verifyOp now c =>
    rcases verify_fst tp now c s with h | h
    · rw [runOp, h]
      exact hInv
    · rw [runOp, h]
      exact Or.inl (rejectInv_scan hInv)

theorem trustInv_runOps {tp : Cert → Thumbprint} {t : Thumbprint}
    {s : PkiState} (hWF : stateWF tp s) (hInv : trustInv tp t s)
    (ops : List Op) (hops : ∀ op ∈ ops, opRejects tp t op = false) :
    trustInv tp t (runOps tp s ops) := by
  induction ops generalizing s with
  | nil => exact hInv
  | cons op ops ih =>
    exact ih (stateWF_runOp hWF op)
      (trustInv_runOp hWF hInv op (hops op (List.mem_cons_self op ops)))
      (fun op' h' => hops op' (List.mem_cons.mpr (Or.inr h')))

theorem rejectInv_runOps {tp : Cert → Thumbprint} {t : Thumbprint}
    {s : PkiState} (hInv : rejectInv tp t s) (ops : List Op)
    (hops : ∀ op ∈ ops, opTrusts tp t op = false) :
    rejectInv tp t (runOps tp s ops) := by
  induction ops generalizing s with
  | nil => exact hInv
  | cons op ops ih =>
    exact ih (rejectInv_runOp hInv op (hops op (List.mem_cons_self op ops)))
      (fun op' h' => hops op' (List.mem_cons.mpr (Or.inr h')))

/-!
Establishment: a successful `trustCertificate` leaves the trusted
invariant, a successful `rejectCertificate` the rejected invariant.
-/

theorem trust_success_trustInv {tp : Cert → Thumbprint} {f : Bool} {C : Cert}
    {s : PkiState} (hWF : stateWF tp s)
    (hok : (trustCertificate tp f C s).2 = none) :
    trustInv tp (tp C) (trustCertificate tp f C s).1 := by
  rcases hgcs : getCertificateStatus tp C s with ⟨S1, st⟩
  have hS1WF : stateWF tp S1 := by
    have h := stateWF_gcs (c := C) hWF
    rw [hgcs] at h
    exact h
  unfold trustCertificate at hok ⊢
  cases st with
  | unknown =>
    exact absurd (by rw [hgcs]) (gcs_snd_ne_unknown tp C s)
  | trusted =>
    rw [move_noop hgcs]
    rcases hst : statusDecision (tp C) (readCertificatesScan tp s).thumbs with
      _ | _ | _
    · rw [gcs_of_unknown hst] at hgcs
      exact absurd (congrArg Prod.snd hgcs) (by simp)
    · rw [gcs_of_trusted hst] at hgcs
      obtain ⟨hnr, hmem⟩ := statusDecision_eq_trusted.mp hst
      have hS1 : S1 = readCertificatesScan tp s := (congrArg Prod.fst hgcs).symm
      subst hS1
      refine ⟨hmem, hnr, ?_⟩
      intro e he hte
      exact hnr ((mem_scanDir tp s.rejectedDir s.thumbs.rejected (tp C)).mpr
        (Or.inl ⟨e, he, hte⟩))
    · rw [gcs_of_rejected hst] at hgcs
      exact absurd (congrArg Prod.snd hgcs) (by simp)
  | rejected =>
    have hne : CertificateStatus.rejected ≠ CertificateStatus.trusted := by
      simp
    rcases hren : fsRename (tp C) (stateDir CertificateStatus.rejected S1)
        (stateDir CertificateStatus.trusted S1) f with _ | ⟨d1, d2⟩
    · rw [move_renameFail hgcs hne hren] at hok
      simp at hok
    · obtain ⟨c', hlk, _, hd1, hd2⟩ := fsRename_none_or_some hren
      rw [move_renameOk hgcs hne hren]
      refine ⟨?_, ?_, ?_⟩
      · simp only [thumbsInsertAt, thumbsEraseAt, thumbs_setStateDir]
        exact List.mem_cons.mpr (Or.inl rfl)
      · simp only [thumbsInsertAt, thumbsEraseAt, thumbs_setStateDir]
        intro hmem
        have := (List.mem_filter.mp hmem).2
        simp at this
      · intro e he hte
        have he1 : e ∈ d1 := he
        rw [hd1] at he1
        have hkey : e.1 ≠ tp C := by
          have := (List.mem_filter.mp he1).2
          simpa using this
        have hwf := hS1WF.2 e (List.mem_of_mem_filter he1)
        exact hkey (hwf.symm ▸ hte)

theorem reject_success_rejectInv {tp : Cert → Thumbprint} {f : Bool}
    {C : Cert} {s : PkiState}
    (hok : (rejectCertificate tp f C s).2 = none) :
    rejectInv tp (tp C) (rejectCertificate tp f C s).1 := by
  rcases hgcs : getCertificateStatus tp C s with ⟨S1, st⟩
  unfold rejectCertificate at hok ⊢
  cases st with
  | unknown =>
    exact absurd (by rw [hgcs]) (gcs_snd_ne_unknown tp C s)
  | rejected =>
    rw [move_noop hgcs]
    rcases hst : statusDecision (tp C) (readCertificatesScan tp s).thumbs with
      _ | _ | _
    · rw [gcs_of_unknown hst] at hgcs
      have hS1 : S1 = { readCertificatesScan tp s with
          rejectedDir :=
            dirWrite (tp C) C (readCertificatesScan tp s).rejectedDir } :=
        (congrArg Prod.fst hgcs).symm
      subst hS1
      right
      exact ⟨(tp C, C), List.mem_cons.mpr (Or.inl rfl), rfl⟩
    · rw [gcs_of_trusted hst] at hgcs
      exact absurd (congrArg Prod.snd hgcs) (by simp)
    · rw [gcs_of_rejected hst] at hgcs
      have hS1 : S1 = readCertificatesScan tp s := (congrArg Prod.fst hgcs).symm
      subst hS1
      exact Or.inl (statusDecision_eq_rejected.mp hst)
  | trusted =>
    have hne : CertificateStatus.trusted ≠ CertificateStatus.rejected := by
      simp
    rcases hren : fsRename (tp C) (stateDir CertificateStatus.trusted S1)
        (stateDir CertificateStatus.rejected S1) f with _ | ⟨d1, d2⟩
    · rw [move_renameFail hgcs hne hren] at hok
      simp at hok
    · rw [move_renameOk hgcs hne hren]
      left
      simp only [thumbsInsertAt, thumbsEraseAt, thumbs_setStateDir]
      exact List.mem_cons.mpr (Or.inl rfl)

/-!
Bootstrap lemmas.
-/

theorem mkdirOp_dirs_mono {p : String} {s : OwnState} (q : String)
    (h : p ∈ s.dirs) : p ∈ (mkdirOp q s).dirs := by
  unfold mkdirOp
  split_ifs
  · exact h
  · exact List.mem_cons.mpr (Or.inr h)

theorem mkdirOp_mem_self (p : String) (s : OwnState) :
    p ∈ (mkdirOp p s).dirs := by
  unfold mkdirOp
  split_ifs with h
  · exact h
  · exact List.mem_cons.mpr (Or.inl rfl)

theorem mkdirOp_configFile (p : String) (s : OwnState) :
    (mkdirOp p s).configFile = s.configFile := by
  unfold mkdirOp
  split_ifs <;> rfl

theorem mkdirOp_privateKey (p : String) (s : OwnState) :
    (mkdirOp p s).privateKey = s.privateKey := by
  unfold mkdirOp
  split_ifs <;> rfl

theorem mkdirOp_id {p : String} {s : OwnState} (h : p ∈ s.dirs) :
    mkdirOp p s = s := by
  unfold mkdirOp
  exact if_pos h

theorem bootstrap_dirs (g : Nat → List Nat) (k : Nat) (s : OwnState) :
    (bootstrapPki g k s).dirs =
      (mkdirOp "rejected" (mkdirOp "trusted" (mkdirOp "own/private"
        (mkdirOp "own/certs" (mkdirOp "own" (mkdirOp "" s)))))).dirs := by
  simp only [bootstrapPki]
  split <;> rfl

theorem bootstrap_config (g : Nat → List Nat) (k : Nat) (s : OwnState) :
    (bootstrapPki g k s).configFile = some configurationFileSimpleTemplate := by
  simp only [bootstrapPki]
  split <;> rfl

theorem bootstrap_key (g : Nat → List Nat) (k : Nat) (s : OwnState) :
    (bootstrapPki g k s).privateKey = some (s.privateKey.getD (g k)) := by
  have hpk : (mkdirOp "rejected" (mkdirOp "trusted" (mkdirOp "own/private"
      (mkdirOp "own/certs" (mkdirOp "own" (mkdirOp "" s)))))).privateKey =
        s.privateKey := by
    simp [mkdirOp_privateKey]
  simp only [bootstrapPki]
  split
  · next v heq =>
    rw [hpk] at heq
    show (mkdirOp "rejected" (mkdirOp "trusted" (mkdirOp "own/private"
      (mkdirOp "own/certs" (mkdirOp "own" (mkdirOp "" s)))))).privateKey =
        some (s.privateKey.getD (g k))
    rw [hpk, heq]
    rfl
  · next heq =>
    rw [hpk] at heq
    rw [heq]
    rfl

theorem bootstrap_mem (g : Nat → List Nat) (k : Nat) (s : OwnState)
    (p : String)
    (hp : p ∈ (["", "own", "own/certs", "own/private", "trusted", "rejected"] :
      List String)) : p ∈ (bootstrapPki g k s).dirs := by
  rw [bootstrap_dirs]
  simp only [List.mem_cons, List.not_mem_nil, or_false] at hp
  rcases hp with rfl | rfl | rfl | rfl | rfl | rfl
  · exact mkdirOp_dirs_mono _ (mkdirOp_dirs_mono _ (mkdirOp_dirs_mono _
      (mkdirOp_dirs_mono _ (mkdirOp_dirs_mono _ (mkdirOp_mem_self _ _)))))
  · exact mkdirOp_dirs_mono _ (mkdirOp_dirs_mono _ (mkdirOp_dirs_mono _
      (mkdirOp_dirs_mono _ (mkdirOp_mem_self _ _))))
  · exact mkdirOp_dirs_mono _ (mkdirOp_dirs_mono _ (mkdirOp_dirs_mono _
      (mkdirOp_mem_self _ _)))
  · exact mkdirOp_dirs_mono _ (mkdirOp_dirs_mono _ (mkdirOp_mem_self _ _))
  · exact mkdirOp_dirs_mono _ (mkdirOp_mem_self _ _)
  · exact mkdirOp_mem_self _ _

theorem bootstrap_stable (g : Nat → List Nat) (k : Nat) {r : OwnState}
    (hd : ∀ p ∈ (["", "own", "own/certs", "own/private", "trusted",
      "rejected"] : List String), p ∈ r.dirs)
    (hc : r.configFile = some configurationFileSimpleTemplate)
    {v : List Nat} (hk : r.privateKey = some v) :
    bootstrapPki g k r = r := by
  obtain ⟨dirs, config, key⟩ := r
  simp only at hc hk
  subst hc
  subst hk
  have hchain : mkdirOp "rejected" (mkdirOp "trusted" (mkdirOp "own/private"
      (mkdirOp "own/certs" (mkdirOp "own" (mkdirOp ""
        (⟨dirs, some configurationFileSimpleTemplate, some v⟩ :
          OwnState)))))) =
      (⟨dirs, some configurationFileSimpleTemplate, some v⟩ : OwnState) := by
    rw [mkdirOp_id (hd "" (by simp))]
    rw [mkdirOp_id (hd "own" (by simp))]
    rw [mkdirOp_id (hd "own/certs" (by simp))]
    rw [mkdirOp_id (hd "own/private" (by simp))]
    rw [mkdirOp_id (hd "trusted" (by simp))]
    rw [mkdirOp_id (hd "rejected" (by simp))]
  simp only [bootstrapPki]
  rw [hchain]

theorem bootstrap_idem (g : Nat → List Nat) (k : Nat) (s : OwnState) :
    bootstrapPki g k (bootstrapPki g k s) = bootstrapPki g k s :=
  bootstrap_stable g k (fun p hp => bootstrap_mem g k s p hp)
    (bootstrap_config g k s) (bootstrap_key g k s)

/-!
Remaining small helpers.
-/

theorem verify_guard_ok {tp : Cert → Thumbprint} {now : Int} {c : Cert}
    {s : PkiState} (hnb : ¬ c.notBefore > now) (hna : ¬ c.notAfter ≤ now) :
    verifyCertificate tp now (some c) s =
      ((getCertificateStatusInternal tp c s).1,
        match (getCertificateStatusInternal tp c s).2 with
        | CertificateStatus.trusted => none
        | _ => some "BadCertificateUntrusted") := by
  simp only [verifyCertificate]
  rw [if_neg hnb, if_neg hna, gcsi_eq]
  cases statusDecision (tp c) (readCertificatesScan tp s).thumbs <;> rfl

theorem dirLookup_write (t : Thumbprint) (c : Cert) (d : Directory) :
    dirLookup t (dirWrite t c d) = some c := by
  simp [dirLookup, dirWrite, List.find?_cons_of_pos]

theorem scan_scan_rejected (tp : Cert → Thumbprint) (s : PkiState)
    (t : Thumbprint) :
    (t ∈ (readCertificatesScan tp (readCertificatesScan tp s)).thumbs.rejected)
      ↔ t ∈ (readCertificatesScan tp s).thumbs.rejected := by
  constructor
  · intro h
    rcases (mem_scanDir tp s.rejectedDir
        (readCertificatesScan tp s).thumbs.rejected t).mp h with
      ⟨e, he, hte⟩ | h'
    · exact (mem_scanDir tp s.rejectedDir s.thumbs.rejected t).mpr
        (Or.inl ⟨e, he, hte⟩)
    · exact h'
  · exact fun h => mem_scanDir_of_mem tp s.rejectedDir h

theorem scan_scan_trusted (tp : Cert → Thumbprint) (s : PkiState)
    (t : Thumbprint) :
    (t ∈ (readCertificatesScan tp (readCertificatesScan tp s)).thumbs.trusted)
      ↔ t ∈ (readCertificatesScan tp s).thumbs.trusted := by
  constructor
  · intro h
    rcases (mem_scanDir tp s.trustedDir
        (readCertificatesScan tp s).thumbs.trusted t).mp h with
      ⟨e, he, hte⟩ | h'
    · exact (mem_scanDir tp s.trustedDir s.thumbs.trusted t).mpr
        (Or.inl ⟨e, he, hte⟩)
    · exact h'
  · exact fun h => mem_scanDir_of_mem tp s.trustedDir h

/-!
The claims.
-/

/-- C1: the claim says that after `revokeCertificate(C)` a subsequent
`verifyCertificate(C)` fails with `CertificateRevoked` because the
pipeline consults the CertificateAuthority's revocation record.  The
source's revocation and issuer-revocation steps are stubs that always
succeed, so `verifyCertificate` can never produce the revoked error for
any input, and a time-valid trusted (even if revoked elsewhere)
certificate verifies successfully. -/
theorem claim_C1_no_revocation_check :
    (∀ (tp : Cert → Thumbprint) (now : Int) (cert : Option Cert)
        (s : PkiState),
      (verifyCertificate tp now cert s).2 ≠ some "BadCertificateRevoked") ∧
    (verifyCertificate tpDemo 5 (some certA) stateTruA).2 = none := by
  constructor
  · intro tp now cert s
    rcases cert with _ | c
    · simp [verifyCertificate]
    · simp only [verifyCertificate]
      split_ifs
      · simp
      · simp
      · rw [gcsi_eq]
        cases statusDecision (tp c) (readCertificatesScan tp s).thumbs <;> simp
  · decide

/-- C6: the claim says a missing or zero-length certificate fails with
the missing-certificate reason as the first verification check.  The
code's guard is `!certificate`, which catches only a null/undefined
argument (and reports `BadSecurityChecksFailed`); a zero-length Buffer
is truthy, so an empty certificate passes the guard and reaches the
later checks — here it reaches the trust check and fails with
`BadCertificateUntrusted` instead. -/
theorem claim_C6_counterexample :
    (verifyCertificate tpDemo 5 (some certE) state0).2 =
      some "BadCertificateUntrusted" ∧
    some "BadCertificateUntrusted" ≠ some "BadSecurityChecksFailed" ∧
    certE.der = [] := by
  decide

/-- C6 (amended): only a missing (null) certificate argument makes
`verifyCertificate` fail immediately — with reason
`BadSecurityChecksFailed` — before any other check runs (the store is
untouched, whatever its contents and whatever the time); a zero-length
certificate is not caught by this guard. -/
theorem claim_C6_missing_guard (tp : Cert → Thumbprint) (now : Int)
    (s : PkiState) :
    verifyCertificate tp now none s = (s, some "BadSecurityChecksFailed") :=
  rfl

/-- C7: a certificate outside its validity window fails with
`BadCertificateTimeInvalid`: not-yet-active (`now < notBefore`) or
expired (`notAfter <= now`).  The returned state is `s` itself — the
trust status is never consulted, so the failure happens regardless of
trust status. -/
theorem claim_C7_time_invalid (tp : Cert → Thumbprint) (now : Int) (c : Cert)
    (s : PkiState) :
    (now < c.notBefore →
      verifyCertificate tp now (some c) s =
        (s, some "BadCertificateTimeInvalid")) ∧
    (c.notAfter ≤ now →
      verifyCertificate tp now (some c) s =
        (s, some "BadCertificateTimeInvalid")) := by
  constructor
  · intro h
    simp only [verifyCertificate]
    rw [if_pos h]
  · intro h
    simp only [verifyCertificate]
    by_cases h1 : c.notBefore > now
    · rw [if_pos h1]
    · rw [if_neg h1, if_pos h]

/-- C7 witness: concrete instances of both temporal failures, on a
store that trusts the certificate. -/
theorem claim_C7_witness :
    verifyCertificate tpDemo 200 (some certA) stateTruA =
      (stateTruA, some "BadCertificateTimeInvalid") ∧
    verifyCertificate tpDemo (-5) (some certA) stateTruA =
      (stateTruA, some "BadCertificateTimeInvalid") :=
  ⟨(claim_C7_time_invalid tpDemo 200 certA stateTruA).2 (by decide),
    (claim_C7_time_invalid tpDemo (-5) certA stateTruA).1 (by decide)⟩

/-- C8: for a temporally valid certificate, the trust-status check
fails with `BadCertificateUntrusted` when the internal status is
`unknown` or `rejected`, and only status `trusted` passes (after which
the stubbed remaining checks make verification succeed). -/
theorem claim_C8_untrusted (tp : Cert → Thumbprint) (now : Int) (c : Cert)
    (s : PkiState) (hnb : ¬ c.notBefore > now) (hna : ¬ c.notAfter ≤ now) :
    ((getCertificateStatusInternal tp c s).2 = CertificateStatus.unknown ∨
        (getCertificateStatusInternal tp c s).2 = CertificateStatus.rejected →
      (verifyCertificate tp now (some c) s).2 =
        some "BadCertificateUntrusted") ∧
    ((getCertificateStatusInternal tp c s).2 = CertificateStatus.trusted →
      (verifyCertificate tp now (some c) s).2 = none) := by
  rw [verify_guard_ok hnb hna]
  constructor
  · rintro (h | h) <;> rw [h]
  · intro h
    rw [h]

/-- C8 witness: an unknown certificate and a rejected certificate fail
as untrusted; a trusted one verifies. -/
theorem claim_C8_witness :
    (verifyCertificate tpDemo 5 (some certA) state0).2 =
      some "BadCertificateUntrusted" ∧
    (verifyCertificate tpDemo 5 (some certA) stateRejA).2 =
      some "BadCertificateUntrusted" ∧
    (verifyCertificate tpDemo 5 (some certA) stateTruA).2 = none :=
  ⟨(claim_C8_untrusted tpDemo 5 certA state0 (by decide) (by decide)).1
      (Or.inl (by decide)),
    (claim_C8_untrusted tpDemo 5 certA stateRejA (by decide) (by decide)).1
      (Or.inr (by decide)),
    (claim_C8_untrusted tpDemo 5 certA stateTruA (by decide) (by decide)).2
      (by decide)⟩

/-- C10: when a thumbprint is recorded in both the rejected and the
trusted index sets after the scan (for instance because a file with
that certificate sits under both `trusted/` and `rejected/`), the
status lookup answers `rejected`: the rejected set is consulted first,
so rejected wins the tie-break. -/
theorem claim_C10_rejected_wins (tp : Cert → Thumbprint) (c : Cert)
    (s : PkiState)
    (hr : tp c ∈ (readCertificatesScan tp s).thumbs.rejected)
    (ht : tp c ∈ (readCertificatesScan tp s).thumbs.trusted) :
    (getCertificateStatusInternal tp c s).2 = CertificateStatus.rejected := by
  rw [gcsi_eq]
  exact statusDecision_eq_rejected.mpr hr

/-- C10 witness: `certA` filed under both directories is reported
rejected. -/
theorem claim_C10_witness :
    (getCertificateStatusInternal tpDemo certA stateBothA).2 =
      CertificateStatus.rejected :=
  claim_C10_rejected_wins tpDemo certA stateBothA (by decide) (by decide)

/-- C2: the claim says the in-memory index is mutated only when the
backing file rename succeeded.  In the source the `delete`/insert of
the thumbprint happen unconditionally in the rename callback, before
the error is forwarded: with `certA` filed under `rejected/` and an
injected rename failure, `trustCertificate` reports the rename error
yet moves the thumbprint from the rejected index set to the trusted
index set while the file is still under `rejected/` — cache and
filesystem end up inconsistent. -/
theorem claim_C2_index_mutated_on_failed_rename :
    (trustCertificate tpDemo true certA stateRejA).2 = some "rename error" ∧
    (trustCertificate tpDemo true certA stateRejA).1.thumbs.trusted =
      [tpDemo certA] ∧
    (trustCertificate tpDemo true certA stateRejA).1.thumbs.rejected = [] ∧
    (trustCertificate tpDemo true certA stateRejA).1.rejectedDir =
      [(tpDemo certA, certA)] := by
  decide

/-- C3: the claim says the directory scan happens at most once per
instance and the second status query performs no additional scan.  The
source calls `_readCertificates` on every `_getCertificateStatus`
with no already-scanned guard: on the empty store the ghost scan
counter is 1 after one query and 2 after two. -/
theorem claim_C3_counterexample :
    (getCertificateStatusInternal tpDemo certA state0).1.scanCount = 1 ∧
    (getCertificateStatusInternal tpDemo certA
      (getCertificateStatusInternal tpDemo certA state0).1).1.scanCount = 2 := by
  decide

/-- C3 (amended): two consecutive internal status queries on an
unmodified store return the same result (the index only accumulates,
so the answer is stable), but the scan of `trusted/` and `rejected/`
is performed again on every query — each call increments the scan
counter by one — rather than at most once per instance. -/
theorem claim_C3_status_idempotent_but_rescans (tp : Cert → Thumbprint)
    (c : Cert) (s : PkiState) :
    ((getCertificateStatusInternal tp c
        (getCertificateStatusInternal tp c s).1).2 =
      (getCertificateStatusInternal tp c s).2) ∧
    ((getCertificateStatusInternal tp c
        (getCertificateStatusInternal tp c s).1).1.scanCount =
      (getCertificateStatusInternal tp c s).1.scanCount + 1) := by
  constructor
  · simp only [gcsi_eq]
    simp only [statusDecision]
    by_cases h1 : tp c ∈ (readCertificatesScan tp s).thumbs.rejected
    · rw [if_pos ((scan_scan_rejected tp s (tp c)).mpr h1), if_pos h1]
    · rw [if_neg (fun h => h1 ((scan_scan_rejected tp s (tp c)).mp h)),
        if_neg h1]
      by_cases h2 : tp c ∈ (readCertificatesScan tp s).thumbs.trusted
      · rw [if_pos ((scan_scan_trusted tp s (tp c)).mpr h2), if_pos h2]
      · rw [if_neg (fun h => h2 ((scan_scan_trusted tp s (tp c)).mp h)),
          if_neg h2]
  · rfl

/-- C4: the claim says the file materialized for a never-seen
certificate has content byte-identical to the input bytes.  The source
writes `toPem(certificate, "CERTIFICATE")`: on the empty store,
querying the (unknown) `certA` files it under `rejected/`, and the
bytes written — the PEM encoding of the DER — differ from the input
DER bytes. -/
theorem claim_C4_counterexample :
    (getCertificateStatus tpDemo certA state0).1.rejectedDir =
      [(tpDemo certA, certA)] ∧
    (getCertificateStatus tpDemo certA state0).2 =
      CertificateStatus.rejected ∧
    writtenFileBytes certA ≠ certA.der := by
  decide

/-- C4 (amended): for a never-seen certificate (internal status
`unknown`), the caller-facing status query writes
`rejected/<thumbprint>.pem` containing the certificate — on disk as
`writtenFileBytes`, the PEM encoding of the input bytes, not the input
bytes themselves — and returns `rejected`; a second query returns
`rejected` again without writing (the `rejected/` directory is
unchanged). -/
theorem claim_C4_materializes_pem (tp : Cert → Thumbprint) (c : Cert)
    (s : PkiState)
    (h : statusDecision (tp c) (readCertificatesScan tp s).thumbs =
      CertificateStatus.unknown) :
    (getCertificateStatus tp c s).2 = CertificateStatus.rejected ∧
    dirLookup (tp c) (getCertificateStatus tp c s).1.rejectedDir = some c ∧
    (getCertificateStatus tp c ((getCertificateStatus tp c s).1)).2 =
      CertificateStatus.rejected ∧
    (getCertificateStatus tp c
        ((getCertificateStatus tp c s).1)).1.rejectedDir =
      (getCertificateStatus tp c s).1.rejectedDir := by
  rw [gcs_of_unknown h]
  have hfile : rejectInv tp (tp c)
      { readCertificatesScan tp s with
        rejectedDir :=
          dirWrite (tp c) c (readCertificatesScan tp s).rejectedDir } :=
    Or.inr ⟨(tp c, c), List.mem_cons.mpr (Or.inl rfl), rfl⟩
  have h2 := status_of_rejectInv hfile
  refine ⟨rfl, ?_, ?_, ?_⟩
  · exact dirLookup_write (tp c) c (readCertificatesScan tp s).rejectedDir
  · rw [h2]
  · rw [h2]
    rfl

/-- C4 witness: the amended behaviour at the concrete unknown
certificate `certA` on the empty store. -/
theorem claim_C4_witness :
    (getCertificateStatus tpDemo certA state0).2 =
      CertificateStatus.rejected ∧
    dirLookup (tpDemo certA)
      (getCertificateStatus tpDemo certA state0).1.rejectedDir = some certA ∧
    (getCertificateStatus tpDemo certA
      ((getCertificateStatus tpDemo certA state0).1)).2 =
      CertificateStatus.rejected ∧
    (getCertificateStatus tpDemo certA
        ((getCertificateStatus tpDemo certA state0).1)).1.rejectedDir =
      (getCertificateStatus tpDemo certA state0).1.rejectedDir :=
  claim_C4_materializes_pem tpDemo certA state0 (by decide)

/-- C5: after `trustCertificate(C)` succeeds, every later status query
for `C` answers `trusted` across any sequence of well-formed-store
operations that does not reject `C`'s thumbprint; symmetrically, after
`rejectCertificate(C)` succeeds the status stays `rejected` until a
trust of that thumbprint; and a transition whose target equals the
current status is a no-op success (no file is touched — the state is
exactly the one produced by the status computation, and no error is
reported). -/
theorem claim_C5_transitions_durable (tp : Cert → Thumbprint) (C : Cert)
    (s : PkiState) (f : Bool) (ops : List Op) (hWF : stateWF tp s) :
    ((trustCertificate tp f C s).2 = none →
      (∀ op ∈ ops, opRejects tp (tp C) op = false) →
      (getCertificateStatus tp C
        (runOps tp (trustCertificate tp f C s).1 ops)).2 =
          CertificateStatus.trusted) ∧
    ((rejectCertificate tp f C s).2 = none →
      (∀ op ∈ ops, opTrusts tp (tp C) op = false) →
      (getCertificateStatus tp C
        (runOps tp (rejectCertificate tp f C s).1 ops)).2 =
          CertificateStatus.rejected) ∧
    (∀ ns : CertificateStatus, (getCertificateStatus tp C s).2 = ns →
      moveCertificate tp f C ns s = ((getCertificateStatus tp C s).1, none)) := by
  refine ⟨fun hok hops => ?_, fun hok hops => ?_, fun ns hns => ?_⟩
  · have hWF1 : stateWF tp (trustCertificate tp f C s).1 := stateWF_move hWF
    have hInv := trustInv_runOps hWF1 (trust_success_trustInv hWF hok) ops hops
    rw [status_of_trustInv hInv]
  · have hInv := rejectInv_runOps (reject_success_rejectInv hok) ops hops
    rw [status_of_rejectInv hInv]
  · rcases hgcs : getCertificateStatus tp C s with ⟨S1, st⟩
    rw [hgcs] at hns
    simp only at hns
    subst hns
    exact move_noop hgcs

/-- C5 witness: trusting a rejected certificate then running a status
query for another certificate leaves it trusted; rejecting a trusted
one leaves it rejected; trusting an already-trusted certificate is a
no-op success. -/
theorem claim_C5_witness :
    (getCertificateStatus tpDemo certA
      (runOps tpDemo (trustCertificate tpDemo false certA stateRejA).1
        [Op.statusQ certB])).2 = CertificateStatus.trusted ∧
    (getCertificateStatus tpDemo certA
      (runOps tpDemo (rejectCertificate tpDemo false certA stateTruA).1
        [Op.statusQ certB])).2 = CertificateStatus.rejected ∧
    moveCertificate tpDemo false certA CertificateStatus.trusted stateTruA =
      ((getCertificateStatus tpDemo certA stateTruA).1, none) :=
  ⟨(claim_C5_transitions_durable tpDemo certA stateRejA false
      [Op.statusQ certB] (by decide)).1 (by decide) (by decide),
    (claim_C5_transitions_durable tpDemo certA stateTruA false
      [Op.statusQ certB] (by decide)).2.1 (by decide) (by decide),
    (claim_C5_transitions_durable tpDemo certA stateTruA false []
      (by decide)).2.2 CertificateStatus.trusted (by decide)⟩

/-- C9: the bootstrap is idempotent — a second call returns exactly the
same state, so no destructive action happens and the key bytes are
unchanged — and a first call on a fresh root creates `own/certs`,
`own/private`, `trusted/` and `rejected/`, writes the configuration
asset, and generates a private key of the configured size because none
existed; the constructor defaults the key size to 2048. -/
theorem claim_C9_bootstrap_idempotent :
    (∀ (g : Nat → List Nat) (k : Nat) (s : OwnState),
      bootstrapPki g k (bootstrapPki g k s) = bootstrapPki g k s) ∧
    (∀ (g : Nat → List Nat) (kOpt : Option Nat),
      "own/certs" ∈ (bootstrapPki g (constructorKeySize kOpt) freshOwn).dirs ∧
      "own/private" ∈
        (bootstrapPki g (constructorKeySize kOpt) freshOwn).dirs ∧
      "trusted" ∈ (bootstrapPki g (constructorKeySize kOpt) freshOwn).dirs ∧
      "rejected" ∈ (bootstrapPki g (constructorKeySize kOpt) freshOwn).dirs ∧
      (bootstrapPki g (constructorKeySize kOpt) freshOwn).configFile =
        some configurationFileSimpleTemplate ∧
      (bootstrapPki g (constructorKeySize kOpt) freshOwn).privateKey =
        some (g (constructorKeySize kOpt))) ∧
    constructorKeySize none = 2048 := by
  refine ⟨bootstrap_idem, fun g kOpt => ?_, rfl⟩
  refine ⟨bootstrap_mem _ _ _ _ (by simp), bootstrap_mem _ _ _ _ (by simp),
    bootstrap_mem _ _ _ _ (by simp), bootstrap_mem _ _ _ _ (by simp),
    bootstrap_config _ _ _, ?_⟩
  rw [bootstrap_key]
  rfl

end NodeOpcuaPki
